import Mathlib

/-!
Verification development for the `up` privilege-elevation broker.

The repository has two programs:
* `eled` (src/eled/src/main.rs) — the privileged daemon.  It publishes a
  broker object (`EleD`, dbus interface de.ytvwld.Ele1) whose `create`
  call allocates a process record (`EleProcess`, dbus interface
  de.ytvwld.Ele1.Process), registers the record id in the global
  `PROCESS_IDS` list and publishes the record on the object server.
  A background loop in `main` (the exit reaper) polls the records and
  reclaims those whose child exited.
* `ele` (src/ele/src/main.rs) — the unprivileged client.  Only its
  interactive terminal handling (`set_raw` / `reset_terminal` and the
  relay branch of `main`) is embedded here.

The embedding below is a direct shallow translation of that code: Rust
structs become structures, dbus method handlers become pure functions
from the handler state and the message sender to the new state and a
result, and effects of the operating system (pty allocation, process
spawning, child exit) are passed in as explicit parameters.  Rust
panics (assert, expect, unwrap, todo) and boxed errors are modelled as
distinguished fault values so that every control path of the source is
visible in the model.
-/

namespace Ele

/-- Variants of zbus `fdo::Error` that eled constructs or that the dbus
layer produces for it.  `FileExists` is what the daemon returns for the
"already running" state conflicts (lines 156, 170, 192 of eled), and
`UnknownMethod` is the bus reply when a method that the interface block
does not implement is called. -/
inductive Error
  | AccessDenied (msg : String)
  | InvalidArgs (msg : String)
  | SpawnFailed (msg : String)
  | FileExists (msg : String)
  | UnknownMethod (msg : String)
  deriving DecidableEq

/-- How a daemon code path can fail: a dbus error returned to the caller
(`err`), a Rust panic from assert/expect/unwrap/todo (`panicked`), or a
boxed dynamic error as produced by `check_exited` and propagated by
`main` (`boxed`). -/
inductive Fault
  | err (e : Error)
  | panicked (msg : String)
  | boxed (msg : String)
  deriving DecidableEq

/-- A pseudo-terminal handle; only the controller-side file descriptor is
relevant to the embedded behaviour. -/
structure Pty where
  fd : Nat
  deriving DecidableEq

/-- A spawned child process, reduced to the one observable the daemon
polls: whether `try_wait` reports that it has exited. -/
structure Child where
  exited : Bool
  deriving DecidableEq

/-- The pending child configuration accumulated by `pty_process::Command`:
argv (first element is the executable), the environment entries passed to
`envs`, and the working directory passed to `current_dir`. -/
structure Command where
  program : String
  args : List String
  envs : List (String × String)
  current_dir : Option String
  deriving DecidableEq

/-- The daemon-side process record (struct `EleProcess`, eled lines
81–87): the unique bus name of the creator, the pty (present from
creation until exit cleanup), the pending command, and the child handle
(absent until spawn). -/
structure EleProcess where
  sender : String
  pty : Option Pty
  command : Command
  child : Option Child
  deriving DecidableEq

/-- The daemon-wide state: the id counter of `EleD` (eled lines 10–15),
the global `PROCESS_IDS` list (line 8), and the object server contents,
keyed by the id from which the published path /de/ytvwld/Ele/{id} is
derived. -/
structure Daemon where
  next_id : Nat
  process_ids : List Nat
  objects : List (Nat × EleProcess)
  deriving DecidableEq

/-- Lookup of the published record at the path derived from `id`, as the
object server does for `interface(...)` calls and for routing method
calls. -/
def lookupObject (objs : List (Nat × EleProcess)) (id : Nat) : Option EleProcess :=
  match objs.find? (fun e => e.1 == id) with
  | some e => some e.2
  | none => none

/-- Removal of the published record at the path derived from `id`
(`ObjectServer::remove`, eled line 130): the new server contents and
whether an object was found and removed there. -/
def removeObject (objs : List (Nat × EleProcess)) (id : Nat) :
    List (Nat × EleProcess) × Bool :=
  (objs.filter (fun e => e.1 != id), (objs.find? (fun e => e.1 == id)).isSome)

/-- Publication of a record (`ObjectServer::at`, eled line 72): inserts
the record unless an object already sits at that path; the returned
boolean of the real call is discarded by `create`, so it is dropped
here as well. -/
def objectServerAt (objs : List (Nat × EleProcess)) (id : Nat) (p : EleProcess) :
    List (Nat × EleProcess) :=
  if (lookupObject objs id).isSome then objs else objs ++ [(id, p)]

/-- Constructor `EleProcess::new` (eled lines 94–104).  The pty is
allocated first (its descriptor is the `ptyFd` parameter; allocation
failure, mapped to `SpawnFailed`, is not modelled), then the first argv
element is taken as the program; an empty argv fails with
`InvalidArgs("command is missing")`. -/
def EleProcess.new (sender : String) (argv : List String) (ptyFd : Nat) :
    Except Error EleProcess :=
  match argv with
  | [] => .error (.InvalidArgs "command is missing")
  | prog :: rest =>
      .ok { sender := sender
            pty := some { fd := ptyFd }
            command := { program := prog, args := rest, envs := [], current_dir := none }
            child := none }

/-- Ownership check `EleProcess::check_caller` (eled lines 106–114): the
message sender must equal the stored creator name. -/
def EleProcess.check_caller (p : EleProcess) (sender : Option String) :
    Except Error Unit :=
  match sender with
  | none => .error (.AccessDenied "could not get sender")
  | some s =>
      if s = p.sender then .ok ()
      else .error (.AccessDenied "this process was created by a different sender")

/-- Handler `environment` (eled lines 149–161): ownership check, then a
state-conflict error if the child has been spawned, otherwise the
entries are appended to the pending command environment.  The result is
the record as left by the call together with the reply. -/
def EleProcess.environment (p : EleProcess) (sender : Option String)
    (environ : List (String × String)) : EleProcess × Except Fault Unit :=
  match p.check_caller sender with
  | .error e => (p, .error (.err e))
  | .ok _ =>
      if p.child.isSome then
        (p, .error (.err (.FileExists "can not set environ after the process has been started")))
      else
        ({ p with command := { p.command with envs := p.command.envs ++ environ } }, .ok ())

/-- Handler `directory` (eled lines 163–175): ownership check, then a
state-conflict error if the child has been spawned, otherwise the
working directory override is stored. -/
def EleProcess.directory (p : EleProcess) (sender : Option String)
    (path : String) : EleProcess × Except Fault Unit :=
  match p.check_caller sender with
  | .error e => (p, .error (.err e))
  | .ok _ =>
      if p.child.isSome then
        (p, .error (.err (.FileExists "can not set cwd after the process has been started")))
      else
        ({ p with command := { p.command with current_dir := some path } }, .ok ())

/-- Handler `resize` (eled lines 177–184): ownership check, then the
`todo!()` panic — resize is declared but not implemented. -/
def EleProcess.resize (p : EleProcess) (sender : Option String) :
    EleProcess × Except Fault String :=
  match p.check_caller sender with
  | .error e => (p, .error (.err e))
  | .ok _ => (p, .error (.panicked "not yet implemented"))

/-- Handler `spawn` (eled lines 186–199): ownership check; a
state-conflict error if a child already exists; otherwise the pty is
unwrapped (a panic if absent), the operating-system spawn runs (its
outcome is the `os` parameter, failures map to `SpawnFailed`), and on
success the controller-side pty descriptor is returned — a single
descriptor. -/
def EleProcess.spawn (p : EleProcess) (sender : Option String)
    (os : Except String Child) : EleProcess × Except Fault Nat :=
  match p.check_caller sender with
  | .error e => (p, .error (.err e))
  | .ok _ =>
      if p.child.isSome then
        (p, .error (.err (.FileExists "process is already running")))
      else
        match p.pty with
        | none => (p, .error (.panicked "called Option unwrap on a None value"))
        | some pt =>
            match os with
            | .error e => (p, .error (.err (.SpawnFailed e)))
            | .ok child => ({ p with child := some child }, .ok pt.fd)

/-- A method call arriving at a published Process object.  The `spawn`
variant carries the outcome of the operating-system spawn and the
`signal` variant the signal number the client sends. -/
inductive ProcessMethod
  | environment (environ : List (String × String))
  | directory (path : String)
  | resize
  | spawn (os : Except String Child)
  | signal (n : Int)

/-- A dbus reply body from the Process interface. -/
inductive Reply
  | unit
  | fd (n : Nat)
  | str (s : String)
  deriving DecidableEq

/-- Dispatch of a method call on the de.ytvwld.Ele1.Process interface
(eled lines 147–200).  The interface block implements exactly
`environment`, `directory`, `resize` and `spawn`; `signal` is declared
on the client proxy (ele lines 47–52) but has no daemon-side handler,
so the bus answers it with `UnknownMethod` and the record is untouched. -/
def EleProcess.handle (p : EleProcess) (sender : Option String) :
    ProcessMethod → EleProcess × Except Fault Reply
  | .environment environ =>
      match p.environment sender environ with
      | (p2, .ok _) => (p2, .ok .unit)
      | (p2, .error f) => (p2, .error f)
  | .directory path =>
      match p.directory sender path with
      | (p2, .ok _) => (p2, .ok .unit)
      | (p2, .error f) => (p2, .error f)
  | .resize =>
      match p.resize sender with
      | (p2, .ok s) => (p2, .ok (.str s))
      | (p2, .error f) => (p2, .error f)
  | .spawn os =>
      match p.spawn sender os with
      | (p2, .ok n) => (p2, .ok (.fd n))
      | (p2, .error f) => (p2, .error f)
  | .signal _ => (p, .error (.err (.UnknownMethod "Unknown method Signal")))

/-- The daemon state `EleD::new` starts from (eled lines 19–21 and 8):
the id counter at 1, no registered ids, no published objects. -/
def initialDaemon : Daemon :=
  { next_id := 1, process_ids := [], objects := [] }

/-- The daemon state halfway through a successful `create` (eled lines
67–69): the fresh id has been pushed onto `PROCESS_IDS` and the counter
incremented, but `object_server.at(...)` on line 72 has not completed.
Both the lock acquisition on line 68 and the call on line 72 are awaits
of the single-threaded executor, so the reaper loop and other handlers
can run while the daemon is in this state. -/
def createMidState (d : Daemon) : Daemon :=
  { d with process_ids := d.process_ids ++ [d.next_id], next_id := d.next_id + 1 }

/-- Handler `create` of the broker interface (eled lines 51–74).  The
sender is extracted (`AccessDenied` if absent); `assert_eq!(user,
"root")` panics for any other user; the polkit authorization verdict
(the `authorized` parameter — `check_authorization`, lines 23–46) is
consulted; then the record is built, its id registered, the counter
bumped, and the record published at the path derived from the id.
Note that the daemon-side `create` takes no `interactive` argument —
the client proxy (ele line 40) sends one. -/
def EleD.create (d : Daemon) (sender : Option String) (authorized : Bool)
    (ptyFd : Nat) (user : String) (argv : List String) :
    Daemon × Except Fault String :=
  match sender with
  | none => (d, .error (.err (.AccessDenied "could not get sender")))
  | some s =>
      if user = "root" then
        if authorized then
          match EleProcess.new s argv ptyFd with
          | .error e => (d, .error (.err e))
          | .ok proc =>
              let id := d.next_id
              let d1 := createMidState d
              ({ d1 with objects := objectServerAt d1.objects id proc },
               .ok ("/de/ytvwld/Ele/" ++ toString id))
        else (d, .error (.err (.AccessDenied "not authorized")))
      else (d, .error (.panicked "assertion failed: user equals root"))

/-- Method `EleProcess::check_exited` (eled lines 119–144).  Nothing
happens unless a child exists and `try_wait` reports it exited; in that
case the pty is taken (an `expect` panic if it is already gone) and its
descriptor closed, and the published object is removed from the server.
A failed removal is logged and returned as a boxed error, which `main`
propagates with `?` (line 226). -/
def EleProcess.check_exited (p : EleProcess) (objects : List (Nat × EleProcess))
    (id : Nat) : Except Fault (EleProcess × List (Nat × EleProcess) × Bool) :=
  match p.child with
  | none => .ok (p, objects, false)
  | some child =>
      if child.exited then
        match p.pty with
        | none => .error (.panicked "running process does not have a pty")
        | some _ =>
            if (removeObject objects id).2 then
              .ok ({ p with pty := none }, (removeObject objects id).1, true)
            else
              .error (.boxed "failed to unregister process")
      else .ok (p, objects, false)

/-- The index scan of one reaper cycle (eled lines 219–230), starting at
index `idx` with `r` indices of the snapshot length still to visit
(`r` starts as the length read on line 218; the scan itself re-reads
`PROCESS_IDS` at each index, so a stale snapshot is possible in the
real interleaved execution and is representable here by passing an `r`
larger than the current list).  Reading a vanished index is the
`expect` panic of line 222; a missing published object makes the
`interface(...)` call of line 225 fail, which `?` propagates out of
`main`; after `check_exited` reports an exit, the id is removed from
`PROCESS_IDS` by position (`Vec::remove`, line 227) and the scan ends
(`break`, line 228). -/
def reaperFrom (d : Daemon) : Nat → Nat → Except Fault Daemon
  | _, 0 => .ok d
  | idx, r + 1 =>
      match d.process_ids[idx]? with
      | none => .error (.panicked "failed to get process id")
      | some id =>
          match lookupObject d.objects id with
          | none => .error (.boxed "InterfaceNotFound")
          | some p =>
              match p.check_exited d.objects id with
              | .error f => .error f
              | .ok (_, objects2, true) =>
                  .ok { d with objects := objects2,
                               process_ids := d.process_ids.eraseIdx idx }
              | .ok (_, _, false) => reaperFrom d (idx + 1) r

/-- One full reaper cycle (eled lines 217–230): snapshot the registry
length, then scan from index 0. -/
def reaperCycle (d : Daemon) : Except Fault Daemon :=
  reaperFrom d 0 d.process_ids.length

/-- `n` consecutive reaper cycles of the `loop` in `main` (eled lines
216–232); an error from a cycle is propagated by `?` out of the loop,
ending `main`. -/
def reaperIter : Nat → Daemon → Except Fault Daemon
  | 0, d => .ok d
  | n + 1, d =>
      match reaperCycle d with
      | .ok d2 => reaperIter n d2
      | .error f => .error f

/-- Whether the record published under `id` has a child that `try_wait`
reports as exited. -/
def recordExited (d : Daemon) (id : Nat) : Bool :=
  match lookupObject d.objects id with
  | some p =>
      match p.child with
      | some c => c.exited
      | none => false
  | none => false

/-- First registered id whose published record has an exited child, in
registry order. -/
def firstExitedId (d : Daemon) : Option Nat :=
  d.process_ids.find? (fun id => recordExited d id)

/-- List-level description of what one reaper cycle achieves, written
from the spec side for comparison with the index loop `reaperCycle`:
find the first registered id whose record has exited; if there is one,
erase that id from the registry and deregister its object, touching
nothing else; otherwise change nothing. -/
def reapSpec (d : Daemon) : Daemon :=
  match firstExitedId d with
  | none => d
  | some id =>
      { d with process_ids := d.process_ids.erase id,
               objects := (removeObject d.objects id).1 }

/-- Well-formedness of the daemon state between complete operations:
registered ids are distinct, every registered id has a published object,
every published object is registered and still holds its pty, and all
registered ids are below the id counter. -/
def WF (d : Daemon) : Prop :=
  d.process_ids.Nodup ∧
  (∀ id ∈ d.process_ids, (lookupObject d.objects id).isSome = true) ∧
  (∀ e ∈ d.objects, e.1 ∈ d.process_ids ∧ e.2.pty.isSome = true) ∧
  (∀ id ∈ d.process_ids, id < d.next_id)

instance (d : Daemon) : Decidable (WF d) := by
  unfold WF
  infer_instance

/-! Client side (src/ele/src/main.rs): the interactive terminal branch. -/

/-- Terminal attributes as far as the embedded behaviour observes them:
whether raw mode is set (the effect of `cfmakeraw`) plus the remaining
attribute content, opaque here, which restoration must bring back. -/
structure Termios where
  raw : Bool
  flags : Nat
  deriving DecidableEq

/-- `cfmakeraw` (ele line 145): switches the attribute set to raw mode. -/
def cfmakeraw (t : Termios) : Termios :=
  { t with raw := true }

/-- Function `set_raw` (ele lines 132–149): if stdin or stdout is not a
terminal, nothing is modified and no saved attributes are returned;
otherwise the current attributes are read, a raw copy is installed with
`tcsetattr`, and the original attributes are returned.  The result is
the terminal state after the call and the saved attributes. -/
def set_raw (stdinTty stdoutTty : Bool) (current : Termios) :
    Termios × Option Termios :=
  if !stdinTty then (current, none)
  else if !stdoutTty then (current, none)
  else (cfmakeraw current, some current)

/-- Function `reset_terminal` (ele lines 154–158): installs the saved
attributes with `tcsetattr`. -/
def reset_terminal (attrs : Termios) : Termios :=
  attrs

/-- The interactive branch of the client `main` (ele lines 85–98) as a
function of the externally determined facts: whether the received
descriptor, stdin and stdout are terminal-backed, the terminal state on
entry, and the outcome of `copy_bidirectional` (byte counts on success,
an error — for example EIO when the remote pty closes early — on
failure).  The `assert!` on line 87 panics when the descriptor is not a
terminal.  Crucially, the `?` on line 94 returns from `main` on a relay
error before `reset_terminal` on line 97 runs, so the function returns
the terminal state the process leaves behind on each path. -/
def interactiveBranch (fdTty stdinTty stdoutTty : Bool) (term0 : Termios)
    (relay : Except String (Nat × Nat)) : Termios × Except String Unit :=
  if !fdTty then (term0, .error "assertion failed: fd is a terminal")
  else
    let r := set_raw stdinTty stdoutTty term0
    match relay with
    | .error e => (r.1, .error e)
    | .ok _ =>
        match r.2 with
        | some attrs => (reset_terminal attrs, .ok ())
        | none => (r.1, .ok ())

/-! Concrete records used by witnesses and counterexamples. -/

/-- A pending command for /bin/echo hi, as in the spec scenario. -/
def cmdEcho : Command :=
  { program := "/bin/echo", args := ["hi"], envs := [], current_dir := none }

/-- A record owned by alice, configured but not yet spawned. -/
def procConfiguring : EleProcess :=
  { sender := "alice", pty := some { fd := 5 }, command := cmdEcho, child := none }

/-- A record owned by alice whose child is running. -/
def procSpawned : EleProcess :=
  { sender := "alice", pty := some { fd := 5 }, command := cmdEcho,
    child := some { exited := false } }

/-- A record owned by alice whose child has exited but has not been
reaped yet. -/
def procExited : EleProcess :=
  { sender := "alice", pty := some { fd := 5 }, command := cmdEcho,
    child := some { exited := true } }

/-- A daemon state holding one spawned-and-exited record under id 1. -/
def daemonExited : Daemon :=
  { next_id := 2, process_ids := [1], objects := [(1, procExited)] }

/-- A daemon state holding one created-but-never-spawned record under
id 1. -/
def daemonUnspawned : Daemon :=
  { next_id := 2, process_ids := [1], objects := [(1, procConfiguring)] }

/-- A registry that shrank to empty after a cycle snapshotted length 1. -/
def daemonShrunk : Daemon :=
  { next_id := 2, process_ids := [], objects := [] }

/-- Whether a call result is an AccessDenied dbus error. -/
def isAccessDenied {α : Type} : Except Fault α → Bool
  | .error (.err (.AccessDenied _)) => true
  | _ => false

/-! Helper lemmas about the object-server model. -/

theorem lookupObject_cons (e : Nat × EleProcess) (objs : List (Nat × EleProcess))
    (id : Nat) :
    lookupObject (e :: objs) id =
      if e.1 == id then some e.2 else lookupObject objs id := by
  by_cases h : (e.1 == id) = true
  · simp [lookupObject, List.find?_cons_of_pos _ h, h]
  · simp [lookupObject, List.find?_cons_of_neg _ h, h]

theorem lookupObject_mem {objs : List (Nat × EleProcess)} {id : Nat}
    {p : EleProcess} (h : lookupObject objs id = some p) : (id, p) ∈ objs := by
  induction objs with
  | nil => simp [lookupObject] at h
  | cons e tl ih =>
      rw [lookupObject_cons] at h
      by_cases hb : (e.1 == id) = true
      · rw [if_pos hb] at h
        have h1 : e.1 = id := eq_of_beq hb
        have h2 : e.2 = p := by injection h
        have he : e = (id, p) := by
          cases e
          simp_all
        exact he ▸ List.mem_cons_self e tl
      · rw [if_neg hb] at h
        exact List.mem_cons_of_mem _ (ih h)

theorem lookupObject_append (l1 l2 : List (Nat × EleProcess)) (id : Nat) :
    lookupObject (l1 ++ l2) id =
      match lookupObject l1 id with
      | some p => some p
      | none => lookupObject l2 id := by
  induction l1 with
  | nil => simp [lookupObject]
  | cons e tl ih =>
      rw [List.cons_append, lookupObject_cons, lookupObject_cons]
      by_cases hb : (e.1 == id) = true
      · simp [hb]
      · simp [hb, ih]

theorem lookupObject_filter_ne (objs : List (Nat × EleProcess)) (id id2 : Nat)
    (h : id2 ≠ id) :
    lookupObject (objs.filter (fun e => e.1 != id)) id2 = lookupObject objs id2 := by
  induction objs with
  | nil => rfl
  | cons e tl ih =>
      rw [List.filter_cons]
      by_cases hk : (e.1 != id) = true
      · rw [if_pos hk, lookupObject_cons, lookupObject_cons, ih]
      · rw [if_neg hk, lookupObject_cons]
        have he : e.1 = id := by simpa using hk
        have hne : ¬ ((e.1 == id2) = true) := by
          simp [he]
          omega
        rw [if_neg hne, ih]

theorem removeObject_fst (objs : List (Nat × EleProcess)) (id : Nat) :
    (removeObject objs id).1 = objs.filter (fun e => e.1 != id) := rfl

theorem removeObject_snd_of_lookup {objs : List (Nat × EleProcess)} {id : Nat}
    {p : EleProcess} (h : lookupObject objs id = some p) :
    (removeObject objs id).2 = true := by
  unfold removeObject
  unfold lookupObject at h
  cases hf : objs.find? (fun e => e.1 == id) with
  | none => rw [hf] at h; simp at h
  | some e => simp [hf]

theorem lookupObject_removeObject_ne {objs : List (Nat × EleProcess)}
    {id id2 : Nat} (h : id2 ≠ id) :
    lookupObject (removeObject objs id).1 id2 = lookupObject objs id2 := by
  rw [removeObject_fst]
  exact lookupObject_filter_ne objs id id2 h

theorem eraseIdx_eq_erase (l : List Nat) (i : Nat) (id : Nat)
    (hnd : l.Nodup) (h : l[i]? = some id) : l.eraseIdx i = l.erase id := by
  induction l generalizing i with
  | nil => simp at h
  | cons a tl ih =>
      cases i with
      | zero =>
          rw [List.getElem?_cons_zero] at h
          obtain rfl : a = id := by injection h
          rw [List.eraseIdx_cons_zero, List.erase_cons_head]
      | succ i =>
          rw [List.getElem?_cons_succ] at h
          have hmem : id ∈ tl := List.getElem?_mem h
          have hne : a ≠ id := fun he => (List.nodup_cons.mp hnd).1 (he ▸ hmem)
          rw [List.eraseIdx_cons_succ, List.erase_cons_tail (by simp [hne]),
              ih i (List.nodup_cons.mp hnd).2 h]

/-! Characterization of `check_exited` on each kind of record. -/

theorem check_exited_no_child {p : EleProcess} {objs : List (Nat × EleProcess)}
    {id : Nat} (hc : p.child = none) :
    p.check_exited objs id = .ok (p, objs, false) := by
  unfold EleProcess.check_exited
  rw [hc]

theorem check_exited_running {p : EleProcess} {c : Child}
    {objs : List (Nat × EleProcess)} {id : Nat}
    (hc : p.child = some c) (he : c.exited = false) :
    p.check_exited objs id = .ok (p, objs, false) := by
  unfold EleProcess.check_exited
  rw [hc]
  simp [he]

theorem check_exited_exited {p : EleProcess} {c : Child} {pt : Pty}
    {objs : List (Nat × EleProcess)} {id : Nat}
    (hc : p.child = some c) (he : c.exited = true) (hpt : p.pty = some pt)
    (hrm : (removeObject objs id).2 = true) :
    p.check_exited objs id =
      .ok ({ p with pty := none }, (removeObject objs id).1, true) := by
  unfold EleProcess.check_exited
  rw [hc]
  simp only [he, if_true]
  rw [hpt]
  simp only [hrm, if_true]

/-! The reaper scan implements the list-level description `reapSpec`. -/

theorem reaperFrom_eq (d : Daemon) (hWF : WF d) :
    ∀ (r idx : Nat), d.process_ids.length = idx + r →
    reaperFrom d idx r =
      match (d.process_ids.drop idx).find? (fun id => recordExited d id) with
      | none => Except.ok d
      | some id =>
          Except.ok { d with process_ids := d.process_ids.erase id,
                             objects := (removeObject d.objects id).1 } := by
  intro r
  induction r with
  | zero =>
      intro idx hlen
      have hdrop : d.process_ids.drop idx = [] :=
        List.drop_eq_nil_of_le (by omega)
      rw [hdrop]
      rfl
  | succ r ih =>
      intro idx hlen
      have hlt : idx < d.process_ids.length := by omega
      have hget : d.process_ids[idx]? = some d.process_ids[idx] :=
        List.getElem?_eq_getElem hlt
      have hmem : d.process_ids[idx] ∈ d.process_ids := List.getElem_mem hlt
      have hdrop : d.process_ids.drop idx
          = d.process_ids[idx] :: d.process_ids.drop (idx + 1) :=
        List.drop_eq_getElem_cons hlt
      obtain ⟨hnd, hreg, hobj, hlt2⟩ := hWF
      obtain ⟨p, hp⟩ : ∃ p, lookupObject d.objects d.process_ids[idx] = some p :=
        Option.isSome_iff_exists.mp (hreg _ hmem)
      rw [hdrop]
      by_cases hex : recordExited d d.process_ids[idx] = true
      · rw [List.find?_cons_of_pos _ hex]
        obtain ⟨c, hc, hcex⟩ : ∃ c, p.child = some c ∧ c.exited = true := by
          unfold recordExited at hex
          rw [hp] at hex
          cases hchild : p.child with
          | none => simp [hchild] at hex
          | some c =>
              simp only [hchild] at hex
              exact ⟨c, rfl, hex⟩
        obtain ⟨pt, hpt⟩ : ∃ pt, p.pty = some pt :=
          Option.isSome_iff_exists.mp (hobj _ (lookupObject_mem hp)).2
        have hrm : (removeObject d.objects d.process_ids[idx]).2 = true :=
          removeObject_snd_of_lookup hp
        show reaperFrom d idx (r + 1) = _
        unfold reaperFrom
        rw [hget]
        dsimp only
        rw [hp]
        dsimp only
        rw [check_exited_exited hc hcex hpt hrm]
        dsimp only
        rw [eraseIdx_eq_erase _ _ _ hnd hget]
      · rw [List.find?_cons_of_neg _ hex]
        have hrec : reaperFrom d (idx + 1) r =
            match (d.process_ids.drop (idx + 1)).find?
                (fun id => recordExited d id) with
            | none => Except.ok d
            | some id =>
                Except.ok { d with process_ids := d.process_ids.erase id,
                                   objects := (removeObject d.objects id).1 } :=
          ih (idx + 1) (by omega)
        show reaperFrom d idx (r + 1) = _
        unfold reaperFrom
        rw [hget]
        dsimp only
        rw [hp]
        dsimp only
        cases hchild : p.child with
        | none =>
            rw [check_exited_no_child hchild]
            dsimp only
            exact hrec
        | some c =>
            have hcex : c.exited = false := by
              unfold recordExited at hex
              rw [hp] at hex
              simp only [hchild] at hex
              simpa using hex
            rw [check_exited_running hchild hcex]
            dsimp only
            exact hrec

/-- One reaper cycle on a well-formed daemon equals the list-level
description: no fault, and exactly the first registered id with an
exited child (if any) is reclaimed. -/
theorem reaperCycle_eq_reapSpec {d : Daemon} (h : WF d) :
    reaperCycle d = .ok (reapSpec d) := by
  have hmain := reaperFrom_eq d h d.process_ids.length 0 (by omega)
  rw [List.drop_zero] at hmain
  unfold reaperCycle reapSpec firstExitedId
  rw [hmain]
  cases hf : d.process_ids.find? (fun id => recordExited d id) <;> simp [hf]

/-- The list-level reap step preserves well-formedness. -/
theorem WF_reapSpec {d : Daemon} (h : WF d) : WF (reapSpec d) := by
  obtain ⟨hnd, hreg, hobj, hlt⟩ := h
  unfold reapSpec firstExitedId
  cases hf : d.process_ids.find? (fun id => recordExited d id) with
  | none => exact ⟨hnd, hreg, hobj, hlt⟩
  | some id0 =>
      dsimp only
      refine ⟨hnd.erase id0, ?_, ?_, ?_⟩
      · intro id2 hid2
        have h2 := (hnd.mem_erase_iff).mp hid2
        rw [lookupObject_removeObject_ne h2.1]
        exact hreg _ h2.2
      · intro e he
        rw [removeObject_fst] at he
        have hm := List.mem_of_mem_filter he
        have hpred := List.of_mem_filter he
        have hne : e.1 ≠ id0 := by simpa using hpred
        obtain ⟨hin, hpty⟩ := hobj e hm
        exact ⟨(hnd.mem_erase_iff).mpr ⟨hne, hin⟩, hpty⟩
      · intro id2 hid2
        exact hlt _ ((hnd.mem_erase_iff).mp hid2).2

/-! Creation preserves well-formedness. -/

theorem new_ok_pty {s : String} {argv : List String} {fd : Nat} {proc : EleProcess}
    (h : EleProcess.new s argv fd = .ok proc) : proc.pty = some { fd := fd } := by
  cases argv with
  | nil => simp [EleProcess.new] at h
  | cons a tl =>
      unfold EleProcess.new at h
      injection h with h2
      rw [← h2]

theorem WF_create {d : Daemon} (s : String) (authorized : Bool) (ptyFd : Nat)
    (user : String) (argv : List String) (h : WF d) :
    WF (EleD.create d (some s) authorized ptyFd user argv).1 := by
  obtain ⟨hnd, hreg, hobj, hlt⟩ := h
  simp only [EleD.create]
  by_cases hu : user = "root"
  case neg => rw [if_neg hu]; exact ⟨hnd, hreg, hobj, hlt⟩
  rw [if_pos hu]
  cases authorized with
  | false => exact ⟨hnd, hreg, hobj, hlt⟩
  | true =>
      rw [if_pos rfl]
      cases hn : EleProcess.new s argv ptyFd with
      | error e => dsimp only; exact ⟨hnd, hreg, hobj, hlt⟩
      | ok proc =>
          dsimp only
          have hfresh : lookupObject d.objects d.next_id = none := by
            cases hl : lookupObject d.objects d.next_id with
            | none => rfl
            | some q =>
                have hm := lookupObject_mem hl
                have h1 := (hobj _ hm).1
                have h2 := hlt _ h1
                omega
          have hnot : d.next_id ∉ d.process_ids := fun hm => by
            have := hlt _ hm
            omega
          have hat : objectServerAt (createMidState d).objects d.next_id proc
              = d.objects ++ [(d.next_id, proc)] := by
            unfold objectServerAt createMidState
            rw [hfresh]
            rfl
          rw [hat]
          unfold createMidState
          dsimp only
          refine ⟨?_, ?_, ?_, ?_⟩
          · rw [List.nodup_append]
            refine ⟨hnd, List.nodup_singleton _, ?_⟩
            intro x hx hx2
            simp only [List.mem_singleton] at hx2
            exact hnot (hx2 ▸ hx)
          · intro id2 hid2
            rw [List.mem_append] at hid2
            rw [lookupObject_append]
            cases hid2 with
            | inl hin =>
                obtain ⟨q, hq⟩ := Option.isSome_iff_exists.mp (hreg _ hin)
                rw [hq]
                rfl
            | inr hin =>
                simp only [List.mem_singleton] at hin
                subst hin
                rw [hfresh]
                rw [lookupObject_cons]
                simp
          · intro e he
            rw [List.mem_append] at he
            cases he with
            | inl hin =>
                obtain ⟨h1, h2⟩ := hobj e hin
                exact ⟨List.mem_append.mpr (Or.inl h1), h2⟩
            | inr hin =>
                simp only [List.mem_singleton] at hin
                subst hin
                refine ⟨List.mem_append.mpr (Or.inr (by simp)), ?_⟩
                rw [new_ok_pty hn]
                rfl
          · intro id2 hid2
            show id2 < d.next_id + 1
            rw [List.mem_append] at hid2
            cases hid2 with
            | inl hin =>
                have := hlt _ hin
                omega
            | inr hin =>
                simp only [List.mem_singleton] at hin
                omega

/-- A record that never spawned survives one list-level reap step with its
entry and registration intact. -/
theorem reapSpec_preserves_unspawned {d : Daemon} {id : Nat} {p : EleProcess}
    (h1 : WF d) (h2 : lookupObject d.objects id = some p) (h3 : p.child = none) :
    lookupObject (reapSpec d).objects id = some p ∧
    id ∈ (reapSpec d).process_ids := by
  have hm : id ∈ d.process_ids := (h1.2.2.1 _ (lookupObject_mem h2)).1
  unfold reapSpec firstExitedId
  cases hf : d.process_ids.find? (fun i => recordExited d i) with
  | none => exact ⟨h2, hm⟩
  | some id0 =>
      dsimp only
      have hne : id ≠ id0 := by
        intro he
        have hex := List.find?_some hf
        rw [← he] at hex
        unfold recordExited at hex
        rw [h2] at hex
        simp [h3] at hex
      exact ⟨by rw [lookupObject_removeObject_ne hne]; exact h2,
             (h1.1.mem_erase_iff).mpr ⟨hne, hm⟩⟩

/-! Claim theorems. -/

/-- Claim C1, counterexample: the claim says a `signal` call from a
non-owner fails with AccessDenied, but the daemon interface has no
signal handler at all, so the call is answered with UnknownMethod — not
AccessDenied — for any caller. -/
theorem signal_not_access_checked_cex :
    isAccessDenied (procSpawned.handle (some "mallory") (.signal 2)).2 = false := rfl

/-- Claim C1 (amended): for the operations the daemon actually
implements — set-environment, set-directory and spawn — a call whose
sender differs from the record owner fails with AccessDenied in every
lifecycle state and leaves the record unchanged; a signal call instead
fails with UnknownMethod (for every caller) and also leaves the record
unchanged, because the interface does not implement signal. -/
theorem ownership_checks_amended (p : EleProcess) (s : String)
    (environ : List (String × String)) (path : String) (n : Int)
    (os : Except String Child) (h : s ≠ p.sender) :
    p.handle (some s) (.environment environ)
      = (p, .error (.err (.AccessDenied "this process was created by a different sender"))) ∧
    p.handle (some s) (.directory path)
      = (p, .error (.err (.AccessDenied "this process was created by a different sender"))) ∧
    p.handle (some s) (.spawn os)
      = (p, .error (.err (.AccessDenied "this process was created by a different sender"))) ∧
    p.handle (some s) (.signal n)
      = (p, .error (.err (.UnknownMethod "Unknown method Signal"))) := by
  have hcc : p.check_caller (some s)
      = .error (.AccessDenied "this process was created by a different sender") := by
    simp only [EleProcess.check_caller]
    rw [if_neg h]
  refine ⟨?_, ?_, ?_, rfl⟩ <;>
    simp only [EleProcess.handle, EleProcess.environment, EleProcess.directory,
      EleProcess.spawn, hcc]

/-- Claim C1, witness for the amended theorem at a concrete record and a
concrete foreign sender. -/
theorem ownership_checks_amended_witness :
    procSpawned.handle (some "mallory") (.environment [("A", "B")])
      = (procSpawned, .error (.err (.AccessDenied "this process was created by a different sender"))) ∧
    procSpawned.handle (some "mallory") (.directory "/tmp")
      = (procSpawned, .error (.err (.AccessDenied "this process was created by a different sender"))) ∧
    procSpawned.handle (some "mallory") (.spawn (.ok { exited := false }))
      = (procSpawned, .error (.err (.AccessDenied "this process was created by a different sender"))) ∧
    procSpawned.handle (some "mallory") (.signal 2)
      = (procSpawned, .error (.err (.UnknownMethod "Unknown method Signal"))) :=
  ownership_checks_amended procSpawned "mallory" [("A", "B")] "/tmp" 2
    (.ok { exited := false }) (by decide)

/-- Claim C2: the daemon-side Process interface implements no signal
operation — the client proxy declares signal and the client forwarding
task calls it, but the daemon (eled lines 147–200) only implements
environment, directory, resize and spawn, so a signal call from the
owner of a spawned record is answered with UnknownMethod and never
reaches the child. -/
theorem signal_method_missing_daemon_side :
    procSpawned.handle (some "alice") (.signal 2)
      = (procSpawned, .error (.err (.UnknownMethod "Unknown method Signal"))) := rfl

/-- Claim C3, counterexample: the state in the middle of a `create` on a
fresh daemon — after the id is pushed to PROCESS_IDS (eled line 68) and
before `object_server.at` (line 72) completes, a real suspension point
of the single-threaded executor — has id 1 registered but unpublished;
a reaper cycle running in that window even makes `main` return with an
error. -/
theorem registry_publication_window_cex :
    1 ∈ (createMidState initialDaemon).process_ids ∧
    lookupObject (createMidState initialDaemon).objects 1 = none ∧
    reaperCycle (createMidState initialDaemon) = .error (.boxed "InterfaceNotFound") :=
  ⟨by decide, rfl, rfl⟩

/-- Claim C3 (amended): at operation boundaries the registry/publication
correspondence does hold — a complete `create` call and a complete
reaper cycle each map a well-formed daemon state (registered iff
published, in particular) to a well-formed one, and the cycle is exactly
the list-level reap step — but registration and publication are not
atomic inside the operations. -/
theorem registry_invariant_at_operation_boundaries (d : Daemon) (s : String)
    (authorized : Bool) (ptyFd : Nat) (user : String) (argv : List String)
    (h : WF d) :
    WF (EleD.create d (some s) authorized ptyFd user argv).1 ∧
    reaperCycle d = .ok (reapSpec d) ∧ WF (reapSpec d) :=
  ⟨WF_create s authorized ptyFd user argv h, reaperCycle_eq_reapSpec h,
   WF_reapSpec h⟩

/-- Claim C3, witness for the amended theorem on the initial daemon
state. -/
theorem registry_invariant_at_operation_boundaries_witness :
    WF initialDaemon ∧
    (WF (EleD.create initialDaemon (some "alice") true 5 "root" ["/bin/echo", "hi"]).1 ∧
     reaperCycle initialDaemon = .ok (reapSpec initialDaemon) ∧
     WF (reapSpec initialDaemon)) :=
  ⟨by decide,
   registry_invariant_at_operation_boundaries initialDaemon "alice" true 5 "root"
     ["/bin/echo", "hi"] (by decide)⟩

/-- Claim C4: once a child exists, owner calls to set-environment and
set-directory fail with the state-conflict fault (the daemon encodes the
spec's AlreadyRunning as the dbus FileExists error) and leave the record
— hence the pending command and the running child — untouched, and a
second spawn fails the same way without creating another child. -/
theorem post_spawn_config_frozen (p : EleProcess) (c : Child)
    (environ : List (String × String)) (path : String) (os : Except String Child)
    (h : p.child = some c) :
    p.environment (some p.sender) environ
      = (p, .error (.err (.FileExists "can not set environ after the process has been started"))) ∧
    p.directory (some p.sender) path
      = (p, .error (.err (.FileExists "can not set cwd after the process has been started"))) ∧
    p.spawn (some p.sender) os
      = (p, .error (.err (.FileExists "process is already running"))) := by
  have hcc : p.check_caller (some p.sender) = .ok () := by
    simp [EleProcess.check_caller]
  have hs : p.child.isSome = true := by rw [h]; rfl
  refine ⟨?_, ?_, ?_⟩ <;>
    simp only [EleProcess.environment, EleProcess.directory, EleProcess.spawn,
      hcc, hs, if_true]

/-- Claim C4, witness at a concrete spawned record. -/
theorem post_spawn_config_frozen_witness :
    procSpawned.environment (some "alice") [("A", "B")]
      = (procSpawned, .error (.err (.FileExists "can not set environ after the process has been started"))) ∧
    procSpawned.directory (some "alice") "/tmp"
      = (procSpawned, .error (.err (.FileExists "can not set cwd after the process has been started"))) ∧
    procSpawned.spawn (some "alice") (.ok { exited := false })
      = (procSpawned, .error (.err (.FileExists "process is already running"))) :=
  post_spawn_config_frozen procSpawned { exited := false } [("A", "B")] "/tmp"
    (.ok { exited := false }) rfl

/-- Claim C5, counterexample: the scan does not tolerate a vanished
index — when the snapshot said one entry remained but the registry has
shrunk, reading the id is the `expect` of eled line 222, a panic, not a
tolerated skip. -/
theorem reaper_index_read_panics_cex :
    reaperFrom daemonShrunk 0 1 = .error (.panicked "failed to get process id") := rfl

/-- Claim C5 (amended): on a well-formed daemon state a reaper cycle
snapshots the length, scans the indices, checks exit per record, and on
the first exited child reclaims exactly that record — removing its id
and its object — and ends the scan (the `break` of line 228; the next
cycle rescans from the beginning), so it equals the list-level reap
step; but a vanished index makes the scan panic rather than being
tolerated. -/
theorem reaper_cycle_removes_first_exited (d : Daemon) (h : WF d) :
    reaperCycle d = .ok (reapSpec d) :=
  reaperCycle_eq_reapSpec h

/-- Claim C5, witness on a daemon holding one exited record. -/
theorem reaper_cycle_removes_first_exited_witness :
    WF daemonExited ∧ reaperCycle daemonExited = .ok (reapSpec daemonExited) :=
  ⟨by decide, reaper_cycle_removes_first_exited daemonExited (by decide)⟩

/-- Claim C6: when deregistration reports that no object was found where
expected, `check_exited` returns the boxed error of eled line 136 (after
logging); `main` then propagates it with the `?` on line 226, so the
daemon main loop terminates instead of continuing. -/
theorem deregistration_failure_aborts_main :
    EleProcess.check_exited procExited [] 7
      = .error (.boxed "failed to unregister process") := rfl

/-- Claim C7: a create call with an empty argv publishes nothing and
leaves the daemon state unchanged, and the order of checks is
deterministic with authorization first: an unauthorized caller gets
AccessDenied, an authorized one gets InvalidArgs from the empty argv. -/
theorem create_empty_argv_auth_first (d : Daemon) (s : String) (authorized : Bool)
    (ptyFd : Nat) :
    EleD.create d (some s) authorized ptyFd "root" []
      = (d, .error (.err (if authorized then Error.InvalidArgs "command is missing"
                          else Error.AccessDenied "not authorized"))) := by
  cases authorized <;> rfl

/-- Claim C8: the daemon-side spawn returns a single file descriptor —
the pty controller side — for every record; it never returns three
stdio descriptors, and the daemon-side create (see `EleD.create`) takes
no interactive flag at all. -/
theorem spawn_returns_single_fd :
    procConfiguring.handle (some "alice") (.spawn (.ok { exited := false }))
      = ({ procConfiguring with child := some { exited := false } }, .ok (.fd 5)) := rfl

/-- Claim C9: with stdin and stdout terminal-backed, a relay that ends
in an error (for example EIO when the remote pty closes early) makes the
client return through the `?` of ele line 94 before `reset_terminal`
runs, leaving the terminal in raw mode instead of restoring the captured
attributes. -/
theorem raw_mode_not_restored_on_relay_error :
    interactiveBranch true true true { raw := false, flags := 42 } (.error "EIO")
      = ({ raw := true, flags := 42 }, .error "EIO") := rfl

/-- Claim C10: a record on which spawn never succeeded is never
reclaimed — after any number of reaper cycles the cycle result is the
iterated list-level reap step, under which the record stays published
unchanged (pty still held) and its id stays registered. -/
theorem unspawned_record_never_reclaimed (d : Daemon) (id : Nat) (p : EleProcess)
    (n : Nat) (h1 : WF d) (h2 : lookupObject d.objects id = some p)
    (h3 : p.child = none) :
    reaperIter n d = .ok (reapSpec^[n] d) ∧
    lookupObject (reapSpec^[n] d).objects id = some p ∧
    id ∈ (reapSpec^[n] d).process_ids := by
  induction n generalizing d with
  | zero =>
      refine ⟨rfl, ?_, ?_⟩
      · simpa using h2
      · simpa using (h1.2.2.1 _ (lookupObject_mem h2)).1
  | succ n ih =>
      have hstep := reaperCycle_eq_reapSpec h1
      have hWF2 := WF_reapSpec h1
      obtain ⟨hl2, hm2⟩ := reapSpec_preserves_unspawned h1 h2 h3
      obtain ⟨ha, hb, hc⟩ := ih (reapSpec d) hWF2 hl2
      refine ⟨?_, ?_, ?_⟩
      · show reaperIter (n + 1) d = _
        unfold reaperIter
        rw [hstep]
        dsimp only
        rw [ha, Function.iterate_succ_apply]
      · rw [Function.iterate_succ_apply]
        exact hb
      · rw [Function.iterate_succ_apply]
        exact hc

/-- Claim C10, witness: three reaper cycles on a daemon holding one
never-spawned record leave it fully intact. -/
theorem unspawned_record_never_reclaimed_witness :
    reaperIter 3 daemonUnspawned = .ok (reapSpec^[3] daemonUnspawned) ∧
    lookupObject (reapSpec^[3] daemonUnspawned).objects 1 = some procConfiguring ∧
    1 ∈ (reapSpec^[3] daemonUnspawned).process_ids :=
  unspawned_record_never_reclaimed daemonUnspawned 1 procConfiguring 3
    (by decide) rfl rfl

end Ele
